import Mathlib

/-!
Verification of the full-duplex voice-conversation coordinator
(`main.py`, `stt_handler.py`, `tts_handler.py`, `tts_handler_optimized.py`,
`cartesia_tts_engine_optimized.py`).

The Python code is shallowly embedded: every class becomes a structure whose
fields mirror the mutable attributes, every method becomes a pure function on
that structure, threads are replaced by explicit interleavings at the points
where the source synchronises (sleeps, joins, future results), and Python
strings become Lean strings with hand-rolled models of `str.strip`,
`str.lower`, negative-index slicing and the specific `re.sub` calls the code
performs.
-/

/-! ## Python string primitives -/

/-- Model of Python `str.strip()` on the character list: drop whitespace from
both ends. -/
def pyStripL (l : List Char) : List Char :=
  (l.dropWhile Char.isWhitespace).rdropWhile Char.isWhitespace

/-- Model of Python `str.strip()`. -/
def pyStrip (s : String) : String :=
  ⟨pyStripL s.data⟩

/-- Model of Python `str.lower()` (ASCII mapping, which is all the repository
feeds it). -/
def pyLower (s : String) : String :=
  ⟨s.data.map Char.toLower⟩

/-- Model of the Python slice `l[i:]` for an arbitrary (possibly negative)
integer index `i`. -/
def pySliceFrom (i : Int) (l : List α) : List α :=
  if 0 ≤ i then l.drop i.toNat else l.drop (l.length - (-i).toNat)

/-! ## ConversationManager (`main.py`, lines 31-57) -/

/-- State of `ConversationManager`. -/
structure ConversationManager where
  history : List String
  max_history : Nat
  turn_count : Nat
  error_count : Nat
  max_consecutive_errors : Nat
  deriving DecidableEq

/-- Embeds `ConversationManager.__init__(max_history)`. -/
def conversation_manager_init (max_history : Nat) : ConversationManager :=
  { history := [], max_history := max_history, turn_count := 0,
    error_count := 0, max_consecutive_errors := 3 }

/-- Embeds `ConversationManager.add_turn`: append the formatted record, then, when
the history exceeds `max_history`, keep `history[0]` plus the Python slice
`history[-(max_history-1):]`. -/
def add_turn (role content : String) (cm : ConversationManager) : ConversationManager :=
  let h := cm.history ++ [role ++ ": " ++ content]
  let h :=
    if cm.max_history < h.length then
      h.take 1 ++ pySliceFrom (-((cm.max_history : Int) - 1)) h
    else h
  { cm with history := h, turn_count := cm.turn_count + 1 }

/-- Embeds `ConversationManager.get_history` (returns a copy, i.e. the value). -/
def get_history (cm : ConversationManager) : List String :=
  cm.history

/-- Embeds `ConversationManager.record_error`. -/
def record_error (cm : ConversationManager) : ConversationManager :=
  { cm with error_count := cm.error_count + 1 }

/-- Embeds `ConversationManager.reset_errors`. -/
def reset_errors (cm : ConversationManager) : ConversationManager :=
  { cm with error_count := 0 }

/-- Embeds `ConversationManager.should_abort`: `error_count >= max_consecutive_errors`. -/
def should_abort (cm : ConversationManager) : Bool :=
  decide (cm.max_consecutive_errors ≤ cm.error_count)

/-- A manager in the state reached by `ConversationManager(max_history=1)`
followed by one system-preamble turn. -/
def cm_preamble_one : ConversationManager :=
  add_turn "System" "You are Alex" (conversation_manager_init 1)

/-! ## handle_conversation_turn (`main.py`, lines 60-194) -/

/-- The exit-phrase list checked at `main.py` line 103. -/
def exit_phrases : List String :=
  ["quit", "exit", "goodbye", "bye"]

/-- The canned fallback substituted for an invalid generation result
(`main.py` line 121). -/
def fallback_reply : String :=
  "I'm sorry, I didn't quite catch that. Could you repeat?"

/-- External observations one execution of `handle_conversation_turn` makes:
what the speech poller returned, what the reply generator returned, whether
the speak/wait phase raised, and the barge-in observations afterwards. -/
structure TurnEnv where
  /-- Value of `stt_handler.get_barge_in_text()` during the listen window
  (the empty string when nothing qualifying was heard within 15 s). -/
  polling_text : String
  /-- Reply returned by `llm_handler.process_text_with_history`. -/
  llm_response : String
  /-- Whether an exception is raised during the speak/wait phase. -/
  tts_raises : Bool
  /-- Value of `tts_handler.is_barge_in_detected()` after `wait_for_completion`. -/
  barge_in : Bool
  /-- Value of `stt_handler.get_barge_in_text()` right after the barge-in. -/
  interruption_text : String
  /-- Value of `stt_handler.get_barge_in_text()` after the 0.3 s grace sleep. -/
  final_text : String
  /-- Reply generated for the interrupting utterance. -/
  llm_response2 : String
  deriving DecidableEq

/-- Outcome of one conversation turn: the `(should_continue, should_exit)`
pair returned by `handle_conversation_turn`, the number of calls made to the
reply generator, and the updated manager. -/
structure TurnResult where
  should_continue : Bool
  should_exit : Bool
  llm_calls : Nat
  cm : ConversationManager
  deriving DecidableEq

/-- Shallow embedding of `handle_conversation_turn`.  The polling loop is
summarised by its result: `user_text` is the stripped polled text when its
stripped length exceeds 2, else empty (timeout).  Exceptions are modelled as
arising in the speak/wait phase (after the history appends), which is where
the turn spends its time; the `except` clause records an error and consults
`should_abort`. -/
def handle_conversation_turn (env : TurnEnv) (cm : ConversationManager) : TurnResult :=
  let user_text := if 2 < (pyStrip env.polling_text).length then pyStrip env.polling_text else ""
  if user_text = "" then
    { should_continue := true, should_exit := false, llm_calls := 0, cm := record_error cm }
  else if pyLower (pyStrip user_text) ∈ exit_phrases then
    { should_continue := false, should_exit := true, llm_calls := 0, cm := cm }
  else
    let cm := add_turn "User" user_text cm
    let resp := env.llm_response
    let invalid := resp = "" ∨ (pyStrip resp).length < 3
    let resp := if invalid then fallback_reply else resp
    let cm := if invalid then record_error cm else reset_errors cm
    let cm := add_turn "Agent" resp cm
    if env.tts_raises then
      let cm := record_error cm
      if should_abort cm then
        { should_continue := false, should_exit := true, llm_calls := 1, cm := cm }
      else
        { should_continue := true, should_exit := false, llm_calls := 1, cm := cm }
    else
      if env.barge_in ∧ 2 < env.interruption_text.length then
        let itext :=
          if env.final_text ≠ "" ∧ env.interruption_text.length < env.final_text.length then
            env.final_text
          else env.interruption_text
        let cm := add_turn "User" itext cm
        let cm := add_turn "Agent" env.llm_response2 cm
        { should_continue := true, should_exit := false, llm_calls := 2, cm := cm }
      else
        { should_continue := true, should_exit := false, llm_calls := 1, cm := cm }

/-- A turn environment in which no qualifying speech is ever polled. -/
def env_no_speech : TurnEnv :=
  { polling_text := "", llm_response := "", tts_raises := false, barge_in := false,
    interruption_text := "", final_text := "", llm_response2 := "" }

/-- A turn environment in which the user says "quit". -/
def env_quit : TurnEnv :=
  { env_no_speech with polling_text := " Quit " }

/-- The manager state `main` starts the conversation loop with
(`max_history=12`, system preamble, agent welcome turn). -/
def cm_session_start : ConversationManager :=
  add_turn "Agent" "Hello! I'm Alex from Shamla Tech. How can I help you today?"
    (add_turn "System" "You are Alex, an AI voice assistant for Shamla Tech."
      (conversation_manager_init 12))

/-! ## Playback sessions (`tts_handler.py`, `tts_handler_optimized.py`)

One `PlaybackSession` is created per `speak()` invocation.  The handlers keep
no explicit session objects; they drive the current session through the flags
`is_playing`, `barge_in_detected`, `stop_event` and the stream state, so the
embedding carries a ledger of sessions alongside the literal flags. -/

/-- Lifecycle states of a playback session. -/
inductive SessionState where
  | Streaming
  | Interrupted
  | Completed
  deriving DecidableEq

/-- A playback session: identifier plus lifecycle state. -/
structure Session where
  sid : Nat
  sstate : SessionState
  deriving DecidableEq

/-- Number of sessions currently in the `Streaming` state. -/
def streaming_count (ss : List Session) : Nat :=
  ss.countP fun s => decide (s.sstate = SessionState.Streaming)

/-- Cancelling playback moves every `Streaming` session to `Interrupted`. -/
def interrupt_streaming (ss : List Session) : List Session :=
  ss.map fun s =>
    if s.sstate = SessionState.Streaming then { s with sstate := SessionState.Interrupted } else s

/-- Completion moves every `Streaming` session to `Completed`. -/
def complete_streaming (ss : List Session) : List Session :=
  ss.map fun s =>
    if s.sstate = SessionState.Streaming then { s with sstate := SessionState.Completed } else s

/-- State of the Piper `TTSHandler` (`tts_handler.py`): the session ledger
plus the literal flags, the stream playback indicator and the length of the
stream audio queue. -/
structure PiperTTS where
  sessions : List Session
  is_playing : Bool
  barge_in_detected : Bool
  stop_event : Bool
  stream_is_playing : Bool
  audio_queue_len : Nat
  next_sid : Nat
  deriving DecidableEq

/-- Embeds `TTSHandler.stop_playback` (`tts_handler.py` lines 426-439): stop the
stream, clear its audio queue, set `barge_in_detected` and `stop_event`.
The body is wrapped in try/except, so it never raises. -/
def stop_playback (h : PiperTTS) : PiperTTS :=
  { h with stream_is_playing := false, audio_queue_len := 0,
           sessions := interrupt_streaming h.sessions,
           barge_in_detected := true, stop_event := true }

/-- The condition of the debounce loop at the head of `TTSHandler.speak`
(`tts_handler.py` lines 308-310): still playing, or audio still queued, or
the stream still reports playing. -/
def speak_busy (h : PiperTTS) : Bool :=
  h.is_playing || decide (0 < h.audio_queue_len) || h.stream_is_playing

/-- Embeds `TTSHandler._play_with_monitoring`s `play_audio` entry (`tts_handler.py`
lines 180-229): mark playing, reset the barge-in flag, clear `stop_event`,
feed the synthesised chunks and start the stream; a fresh session starts
`Streaming`. -/
def play_with_monitoring (chunks : Nat) (h : PiperTTS) : PiperTTS :=
  { h with is_playing := true, barge_in_detected := false, stop_event := false,
           stream_is_playing := true, audio_queue_len := chunks,
           sessions := h.sessions ++ [{ sid := h.next_sid, sstate := SessionState.Streaming }],
           next_sid := h.next_sid + 1 }

/-- Embeds `TTSHandler.speak` (`tts_handler.py` lines 290-355) with the
handler lock made explicit.  `speak` enters `with self.state_lock:`
(line 307) — `state_lock` is a non-reentrant `threading.Lock` (line 64) —
and holds it across the whole debounce loop.  When the handler is busy, the
first loop iteration calls `stop_playback` (line 316), which stops the
stream and clears its queue but then re-acquires the same lock (line 435)
on the same thread: the acquire blocks forever, `speak` never returns, and
no new audio is ever produced.  That diverging call is returned as `none`.
When the handler is idle the loop body never runs, the lock is released and
`_play_with_monitoring` starts the new session. -/
def speak (h : PiperTTS) (chunks : Nat) : Option PiperTTS :=
  if speak_busy h then none
  else some (play_with_monitoring chunks h)

/-- Natural end of the playback thread: the current session completes, the
stream stops and the `finally:` block runs. -/
def complete_playback (h : PiperTTS) : PiperTTS :=
  { h with sessions := complete_streaming h.sessions,
           stream_is_playing := false, audio_queue_len := 0,
           is_playing := false, stop_event := false }

/-- Embeds `TTSHandler.is_barge_in_detected` (`tts_handler.py` lines 394-397). -/
def is_barge_in_detected (h : PiperTTS) : Bool :=
  h.barge_in_detected

/-- Handler states reachable by the embedding: at most one session streams,
and a streaming session implies the handler is busy. -/
def piper_wf (h : PiperTTS) : Prop :=
  streaming_count h.sessions ≤ 1 ∧ (streaming_count h.sessions ≠ 0 → speak_busy h = true)

/-- The handler right after initialisation: no sessions, nothing playing. -/
def piper_init : PiperTTS :=
  { sessions := [], is_playing := false, barge_in_detected := false, stop_event := false,
    stream_is_playing := false, audio_queue_len := 0, next_sid := 0 }

/-- A handler whose only session has completed naturally: not playing and no
barge-in was detected. -/
def piper_completed : PiperTTS :=
  complete_playback (play_with_monitoring 4 piper_init)

/-! ## Cartesia handler (`tts_handler_optimized.py`, `TTSHandler._speak_cartesia`) -/

/-- State of the optimized handler on its Cartesia path: session ledger,
`is_playing`, `barge_in_detected`, the engine stop event and the pending
synthesis future. -/
structure CartesiaTTS where
  sessions : List Session
  is_playing : Bool
  barge_in_detected : Bool
  engine_stop_event : Bool
  cartesia_future : Option Nat
  next_sid : Nat
  deriving DecidableEq

/-- Embeds `CartesiaTTSEngine.stop` invoked from `_speak_cartesia` (lines 296-299):
sets the engine stop event, which aborts the running stream (the current
`Streaming` session is interrupted). -/
def cartesia_engine_stop (g : CartesiaTTS) : CartesiaTTS :=
  { g with engine_stop_event := true, sessions := interrupt_streaming g.sessions }

/-- The `finally:` block of `monitor_completion` (lines 336-339), which runs
promptly once the stopped synthesis future resolves (the handler sleeps 0.1 s
for exactly this cleanup): clear `is_playing` and the stored future. -/
def cartesia_monitor_finalize (g : CartesiaTTS) : CartesiaTTS :=
  { g with is_playing := false, cartesia_future := none }

/-- Embeds `TTSHandler._speak_cartesia` (`tts_handler_optimized.py` lines 282-343):
if a playback was active, stop the engine and wait for its cleanup; then
clear the stop event (`synthesize_and_play` does `self.stop_event.clear()`),
start the new synthesis and record the pending future. -/
def speak_cartesia (g : CartesiaTTS) : CartesiaTTS :=
  let g := if g.is_playing then cartesia_monitor_finalize (cartesia_engine_stop g) else g
  { g with is_playing := true, barge_in_detected := false, engine_stop_event := false,
           cartesia_future := some g.next_sid,
           sessions := g.sessions ++ [{ sid := g.next_sid, sstate := SessionState.Streaming }],
           next_sid := g.next_sid + 1 }

/-- Reachable Cartesia-handler states: at most one session streams, and a
streaming session implies `is_playing`. -/
def cartesia_wf (g : CartesiaTTS) : Prop :=
  streaming_count g.sessions ≤ 1 ∧ (streaming_count g.sessions ≠ 0 → g.is_playing = true)

/-- The Cartesia handler right after initialisation. -/
def cartesia_init : CartesiaTTS :=
  { sessions := [], is_playing := false, barge_in_detected := false,
    engine_stop_event := false, cartesia_future := none, next_sid := 0 }

/-! ## Barge-in monitors

The monitor threads poll `stt.get_realtime_text()` at a fixed interval while
playback runs.  A run of the monitor is embedded as a function of the list of
polled transcripts observed after the 150 ms startup grace window, returning
whether barge-in was confirmed.  The debounce state is `last_seen` (initially
reset to the empty string) and `consecutive_detections` (initially 0). -/

/-- Embeds `TTSHandler._monitor_barge_in` of `tts_handler.py` (lines 114-175):
threshold `len(text.strip()) > 0`, `min_consecutive = 1`; a changed non-empty
text bumps the counter, an unchanged one decrements it (floored at 0), and
`last_seen` is updated every poll. -/
def basic_monitor : List String → String → Nat → Bool
  | [], _, _ => false
  | t :: rest, last_seen, consec =>
    if t ≠ "" ∧ 0 < (pyStrip t).length then
      if t ≠ last_seen then
        if 1 ≤ consec + 1 then true
        else basic_monitor rest t (consec + 1)
      else basic_monitor rest t (consec - 1)
    else basic_monitor rest t consec

/-- Embeds `TTSHandler._monitor_barge_in` of `tts_handler_optimized.py`
(lines 163-224): threshold `len(text) > barge_in_sensitivity` with
`barge_in_sensitivity = 2`, `min_consecutive = 2`. -/
def opt_monitor : List String → String → Nat → Bool
  | [], _, _ => false
  | t :: rest, last_seen, consec =>
    if t ≠ "" ∧ 2 < t.length then
      if t ≠ last_seen then
        if 2 ≤ consec + 1 then true
        else opt_monitor rest t (consec + 1)
      else opt_monitor rest t (consec - 1)
    else opt_monitor rest t consec

/-! ## Bounded playback queue (`cartesia_tts_engine_optimized.py`)

The producer (`_stream_audio_from_websocket`, lines 255-267) enqueues each
synthesised chunk into `audio_queue` (a `queue.Queue(maxsize=100)`, line 115)
with `put(timeout=1.0)`; on `queue.Full` it retries once with
`put(timeout=2.0)` and otherwise drops the chunk with a saturation log.  A
blocking `put` with a timeout succeeds exactly when the consumer frees a slot
during the window; the consumer behaviour during each window is summarised by
how many frames it dequeues from the front. -/

/-- Capacity of `CartesiaTTSEngine.audio_queue`. -/
def AUDIO_QUEUE_MAXSIZE : Nat := 100

/-- One blocking `put(timeout=...)`: during the window the consumer dequeues
`drained` frames from the front; the put succeeds iff a slot is then free. -/
def put_attempt (maxsize : Nat) (q : List α) (x : α) (drained : Nat) : Option (List α) :=
  let q := q.drop drained
  if q.length < maxsize then some (q ++ [x]) else none

/-- The producer enqueue step for one chunk: first `put(timeout=1.0)`, on
`queue.Full` one retry `put(timeout=2.0)`, then drop.  Returns the resulting
queue, whether the chunk was dropped, and the number of put attempts made. -/
def put_with_backpressure (maxsize : Nat) (q : List α) (x : α) (d1 d2 : Nat) :
    List α × Bool × Nat :=
  match put_attempt maxsize q x d1 with
  | some q1 => (q1, false, 1)
  | none =>
    match put_attempt maxsize (q.drop d1) x d2 with
    | some q2 => (q2, false, 2)
    | none => ((q.drop d1).drop d2, true, 2)

/-! ## wait_for_completion (`tts_handler_optimized.py`, lines 374-408) -/

/-- The flags of the optimized `TTSHandler` that `wait_for_completion` reads. -/
structure OptWaitState where
  use_cartesia : Bool
  cartesia_future : Option Nat
  deriving DecidableEq

/-- The SystemEngine polling loop of `wait_for_completion`: each entry of the
trace is the pair `(is_playing, barge_in_detected)` observed at one 10 ms
poll; an exhausted trace is the timeout and returns `false`. -/
def poll_loop : List (Bool × Bool) → Bool
  | [] => false
  | (playing, barge) :: rest =>
    if !playing then !barge
    else if barge then false
    else poll_loop rest

/-- Embeds `TTSHandler.wait_for_completion` of `tts_handler_optimized.py`:
when Cartesia is in use and a synthesis future is pending it returns `True`
at once; otherwise it polls, for at most `timeout` polls, until playback
ends, barge-in is seen, or the timeout elapses. -/
def wait_for_completion (s : OptWaitState) (timeout : Nat) (trace : List (Bool × Bool)) : Bool :=
  if s.use_cartesia && s.cartesia_future.isSome then true
  else poll_loop (trace.take timeout)

/-! ## STT handler and vocabulary corrections (`stt_handler.py`)

`STTHandler.CORRECTIONS` maps regex patterns to replacements and
`_apply_corrections` applies them in order with `re.sub(..., re.IGNORECASE)`
and finally strips the text.  Every pattern has the shape
`\b( alt-1 | ... | alt-n )\b` where each alternative is a literal string in
which single characters may carry a `?` (as in `services?`, `block ?chain`),
so the embedding implements exactly that pattern class: case-insensitive
literal atoms, optional atoms with backtracking, word boundaries at both
ends, and the left-to-right non-overlapping scan of `re.sub`. -/

/-- An atom of a correction pattern: a literal character or an optional one. -/
inductive RAtom where
  | ch (c : Char)
  | opt (c : Char)
  deriving DecidableEq

/-- One alternative of a pattern: a concatenation of atoms. -/
abbrev RAlt := List RAtom

/-- Case-insensitive character comparison (`re.IGNORECASE`). -/
def ciEq (a b : Char) : Bool :=
  a.toLower == b.toLower

/-- Python regex word characters (`\w`), ASCII range. -/
def isWordChar (c : Char) : Bool :=
  c.isAlphanum || c == '_'

/-- The trailing `\b` of a pattern: every alternative ends in a word
character, so the boundary holds iff the remaining text starts with a
non-word character or is empty. -/
def wordBoundaryAfter : List Char → Bool
  | [] => true
  | c :: _ => !isWordChar c

/-- Match one alternative against the front of the text, case-insensitively,
backtracking over optional atoms, and requiring a word boundary at the end of
the match.  Returns the unconsumed suffix on success. -/
def matchAlt : RAlt → List Char → Option (List Char)
  | [], rest => if wordBoundaryAfter rest then some rest else none
  | RAtom.ch _ :: _, [] => none
  | RAtom.ch c :: as, x :: rest => if ciEq c x then matchAlt as rest else none
  | RAtom.opt _ :: as, [] => matchAlt as []
  | RAtom.opt c :: as, x :: rest =>
    if ciEq c x then
      match matchAlt as rest with
      | some r => some r
      | none => matchAlt as (x :: rest)
    else matchAlt as (x :: rest)

/-- One entry of `CORRECTIONS`: the alternatives of the pattern (between the
two `\b`) and the replacement text. -/
structure Correction where
  alts : List RAlt
  repl : String
  deriving DecidableEq

/-- Literal pattern text as a list of mandatory atoms. -/
def lit (s : String) : RAlt :=
  s.data.map RAtom.ch

/-- Embeds `STTHandler.CORRECTIONS` in its Python dict order. -/
def CORRECTIONS : List Correction :=
  [ { alts := [lit "Shambla Tech", lit "Shambla", lit "Shamlataq", lit "Shamlaq",
               lit "Shamlata", lit "Samba", lit "Sharma Tech"],
      repl := "Shamla Tech" },
    { alts := [lit "eye service" ++ [RAtom.opt 's'], lit "I service" ++ [RAtom.opt 's'],
               lit "A I service" ++ [RAtom.opt 's']],
      repl := "AI services" },
    { alts := [lit "A P I", lit "ay pee eye", lit "a p eye"], repl := "API" },
    { alts := [lit "block" ++ [RAtom.opt ' '] ++ lit "chain"], repl := "blockchain" },
    { alts := [lit "crypto" ++ [RAtom.opt ' '] ++ lit "currency", lit "cripto"],
      repl := "cryptocurrency" },
    { alts := [lit "wanna"], repl := "want to" },
    { alts := [lit "gonna"], repl := "going to" },
    { alts := [lit "gotta"], repl := "got to" },
    { alts := [lit "lemme"], repl := "let me" } ]

/-- The scan of `re.sub` for one correction: walk the text left to right; at
each position where the leading `\b` holds (the previous character, tracked
by `prevIsWord`, is not a word character — every alternative starts with a
word character), try the alternatives in order; on a match emit the
replacement and resume after the consumed text (whose last character is a
word character for every alternative of `CORRECTIONS`).  `fuel` is the
length of the text; every step consumes at least one character. -/
def subScan (c : Correction) : Nat → Bool → List Char → List Char
  | 0, _, l => l
  | _ + 1, _, [] => []
  | fuel + 1, prevIsWord, x :: rest =>
    if prevIsWord then
      x :: subScan c fuel (isWordChar x) rest
    else
      match c.alts.findSome? (fun a => matchAlt a (x :: rest)) with
      | some remaining => c.repl.data ++ subScan c fuel true remaining
      | none => x :: subScan c fuel (isWordChar x) rest

/-- Apply one correction to the whole text (`re.sub` with the pattern). -/
def apply_one_correction (l : List Char) (c : Correction) : List Char :=
  subScan c l.length false l

/-- Embeds `STTHandler._apply_corrections` (`stt_handler.py` lines 74-85):
the empty text is returned as is; otherwise every correction is applied in
order and the result is stripped. -/
def apply_corrections (text : String) : String :=
  if text = "" then text
  else pyStrip ⟨CORRECTIONS.foldl apply_one_correction text.data⟩

/-- The attributes of `STTHandler` the transcript paths touch. -/
structure STTState where
  realtime_text : String
  last_completed_text : String
  deriving DecidableEq

/-- The fresh `STTHandler` state set by its constructor. -/
def stt_init : STTState :=
  { realtime_text := "", last_completed_text := "" }

/-- Embeds `STTHandler._on_realtime_update` (lines 87-93): store the raw
recogniser text under the lock. -/
def on_realtime_update (t : String) (s : STTState) : STTState :=
  { s with realtime_text := t }

/-- Embeds `STTHandler.get_realtime_text` (lines 163-166). -/
def get_realtime_text (s : STTState) : String :=
  s.realtime_text

/-- Embeds `STTHandler.clear_realtime_text` (lines 213-216). -/
def clear_realtime_text (s : STTState) : STTState :=
  { s with realtime_text := "" }

/-- Embeds `STTHandler._on_transcription_complete` (lines 95-101): correct
the finalized text and store it when the corrected text is non-empty. -/
def on_transcription_complete (t : String) (s : STTState) : STTState :=
  let corrected := apply_corrections t
  if corrected ≠ "" then { s with last_completed_text := corrected } else s

/-- A manager constructed with `ConversationManager(max_history=N)` whose
first turn is the system preamble, as `main()` does. -/
def c2_start (N : Nat) (preamble : String) : ConversationManager :=
  add_turn "System" preamble (conversation_manager_init N)

/-! ## Helper lemmas -/

theorem dropWhile_eq_self_of_pref {p : Char → Bool} {m w : List Char}
    (hm : m.dropWhile p = m) (hw : w <+: m) : w.dropWhile p = w := by
  cases hwc : w with
  | nil => rfl
  | cons x w' =>
    have hx : ¬p x := by
      intro hpx
      obtain ⟨t, ht⟩ := hw
      rw [hwc] at ht
      have hm' : m.dropWhile p = (w' ++ t).dropWhile p := by
        rw [← ht]
        simp [List.cons_append, List.dropWhile_cons, hpx]
      have hsuf := List.dropWhile_suffix (l := w' ++ t) p
      have hlen : ((w' ++ t).dropWhile p).length ≤ (w' ++ t).length := hsuf.length_le
      rw [hm] at hm'
      have hml : m.length = (w' ++ t).length + 1 := by rw [← ht]; simp
      have : m.length = ((w' ++ t).dropWhile p).length := by rw [← hm']
      omega
    simp [List.dropWhile_cons, hx]

theorem pyStripL_idem (l : List Char) : pyStripL (pyStripL l) = pyStripL l := by
  unfold pyStripL
  have hA : (l.dropWhile Char.isWhitespace).dropWhile Char.isWhitespace
      = l.dropWhile Char.isWhitespace := List.dropWhile_idempotent _ _
  rw [dropWhile_eq_self_of_pref hA (List.rdropWhile_prefix _ _),
    List.rdropWhile_idempotent]

theorem pyStrip_idem (s : String) : pyStrip (pyStrip s) = pyStrip s :=
  congrArg String.mk (pyStripL_idem s.data)

theorem pyLower_length (s : String) : (pyLower s).length = s.length := by
  unfold pyLower
  show (s.data.map Char.toLower).length = s.length
  rw [List.length_map]
  rfl

theorem string_length_pos_ne_empty {s : String} (h : 0 < s.length) : s ≠ "" := by
  intro he
  rw [he] at h
  exact absurd h (by decide)

theorem add_turn_turn_count (r c : String) (cm : ConversationManager) :
    (add_turn r c cm).turn_count = cm.turn_count + 1 := rfl

theorem add_turn_max_history (r c : String) (cm : ConversationManager) :
    (add_turn r c cm).max_history = cm.max_history := rfl

theorem add_turn_error_count (r c : String) (cm : ConversationManager) :
    (add_turn r c cm).error_count = cm.error_count := rfl

theorem add_turn_length (r c : String) (cm : ConversationManager)
    (h2 : 2 ≤ cm.max_history) :
    (add_turn r c cm).history.length = min cm.max_history (cm.history.length + 1) := by
  unfold add_turn
  simp only []
  by_cases h : cm.max_history < (cm.history ++ [r ++ ": " ++ c]).length
  · rw [if_pos h]
    have hneg : ¬(0 ≤ -((cm.max_history : Int) - 1)) := by omega
    have htn : (-(-((cm.max_history : Int) - 1))).toNat = cm.max_history - 1 := by omega
    simp only [pySliceFrom, if_neg hneg, htn]
    simp only [List.length_append, List.length_take, List.length_drop,
      List.length_cons, List.length_nil] at h ⊢
    omega
  · rw [if_neg h]
    simp only [List.length_append, List.length_cons, List.length_nil] at h ⊢
    omega

theorem add_turn_head (r c p : String) (cm : ConversationManager)
    (hp : cm.history.head? = some p) :
    (add_turn r c cm).history.head? = some p := by
  obtain ⟨t, ht⟩ : ∃ t, cm.history = p :: t := by
    cases hcm : cm.history with
    | nil => rw [hcm] at hp; simp at hp
    | cons a t =>
      rw [hcm] at hp
      simp only [List.head?_cons, Option.some.injEq] at hp
      exact ⟨t, by rw [hp]⟩
  unfold add_turn
  simp only [ht]
  by_cases h : cm.max_history < ((p :: t) ++ [r ++ ": " ++ c]).length
  · rw [if_pos h]
    simp
  · rw [if_neg h]
    simp

theorem foldl_add_turn_length (turns : List (String × String)) :
    ∀ cm : ConversationManager, 2 ≤ cm.max_history → cm.history.length ≤ cm.max_history →
      ((turns.foldl (fun cm rc => add_turn rc.1 rc.2 cm) cm).history.length
        = min cm.max_history (cm.history.length + turns.length)) := by
  induction turns with
  | nil => intro cm _ hle; simp; omega
  | cons rc rest ih =>
    intro cm h2 hle
    simp only [List.foldl_cons, List.length_cons]
    have h2' : 2 ≤ (add_turn rc.1 rc.2 cm).max_history := by
      rw [add_turn_max_history]; exact h2
    have hlen := add_turn_length rc.1 rc.2 cm h2
    have hle' : (add_turn rc.1 rc.2 cm).history.length ≤ (add_turn rc.1 rc.2 cm).max_history := by
      rw [hlen, add_turn_max_history]; omega
    rw [ih (add_turn rc.1 rc.2 cm) h2' hle', hlen, add_turn_max_history]
    omega

theorem foldl_add_turn_head (turns : List (String × String)) :
    ∀ (cm : ConversationManager) (p : String), cm.history.head? = some p →
      ((turns.foldl (fun cm rc => add_turn rc.1 rc.2 cm) cm).history.head? = some p) := by
  induction turns with
  | nil => intro cm p hp; simpa using hp
  | cons rc rest ih =>
    intro cm p hp
    simp only [List.foldl_cons]
    exact ih _ p (add_turn_head rc.1 rc.2 p cm hp)

theorem c2_start_history (N : Nat) (preamble : String) (hN : 1 ≤ N) :
    (c2_start N preamble).history = ["System: " ++ preamble] := by
  unfold c2_start add_turn conversation_manager_init
  simp only [List.nil_append]
  rw [if_neg (by simp; omega)]
  rfl

/-! ## Claim C2 -/

/-- C2 (counterexample): with maximum history size `N = 1`, starting from a
history holding only the system preamble, after `N + 5 = 6` `add_turn` calls
the history length is not `N = 1` (the trimming slice
`history[-(max_history-1):]` is `history[0:]`, the whole list, so the history
grows by two entries per call). -/
theorem C2_counterexample :
    ((List.replicate 6 ("User", "hi")).foldl (fun cm rc => add_turn rc.1 rc.2 cm)
      (c2_start 1 "You are Alex")).history.length ≠ 1 := by
  decide

/-- C2 (amended): for every maximum history size `N ≥ 2`, starting from a
history whose single entry is the system preamble, after `N + 5` `add_turn`
calls the history has length exactly `N` and its first element is still the
preamble; moreover no `add_turn` call, for any configuration, ever evicts the
first history entry. -/
theorem C2_thm (N : Nat) (hN : 2 ≤ N) (preamble : String)
    (turns : List (String × String)) (hlen : turns.length = N + 5) :
    ((turns.foldl (fun cm rc => add_turn rc.1 rc.2 cm)
        (c2_start N preamble)).history.length = N) ∧
    ((turns.foldl (fun cm rc => add_turn rc.1 rc.2 cm)
        (c2_start N preamble)).history.head? = some ("System: " ++ preamble)) ∧
    (∀ (cm : ConversationManager) (r c p : String), cm.history.head? = some p →
      (add_turn r c cm).history.head? = some p) := by
  have hh := c2_start_history N preamble (by omega)
  have hmax : (c2_start N preamble).max_history = N := rfl
  refine ⟨?_, ?_, fun cm r c p hp => add_turn_head r c p cm hp⟩
  · rw [foldl_add_turn_length turns (c2_start N preamble) (by rw [hmax]; exact hN)
      (by rw [hh, hmax]; simpa using by omega : (c2_start N preamble).history.length ≤ _)]
    rw [hh, hmax, hlen]
    simp only [List.length_cons, List.length_nil]
    omega
  · exact foldl_add_turn_head turns (c2_start N preamble) ("System: " ++ preamble)
      (by rw [hh]; rfl)

/-- C2 witness: the amended bound evaluated at `N = 2` with seven concrete
turns. -/
theorem C2_witness :
    ((List.replicate 7 ("User", "hi")).foldl (fun cm rc => add_turn rc.1 rc.2 cm)
        (c2_start 2 "You are Alex")).history.length = 2 ∧
    ((List.replicate 7 ("User", "hi")).foldl (fun cm rc => add_turn rc.1 rc.2 cm)
        (c2_start 2 "You are Alex")).history.head? = some "System: You are Alex" := by
  have h := C2_thm 2 (by decide) "You are Alex" (List.replicate 7 ("User", "hi")) (by decide)
  exact ⟨h.1, h.2.1⟩

/-! ## Claim C10 -/

/-- C10: for every manager with `max_history ≥ 2`, `add_turn` leaves the
history length at most `max_history` and increments `turn_count` by exactly
one; for `max_history = 1` the bound fails, because the trimming slice
`history[-(max_history-1):]` is the whole list (shown both abstractly, as
`pySliceFrom 0`, and on a concrete manager whose history grows past 1). -/
theorem C10_thm (cm : ConversationManager) (r c : String) (h2 : 2 ≤ cm.max_history) :
    ((add_turn r c cm).history.length ≤ cm.max_history) ∧
    ((add_turn r c cm).turn_count = cm.turn_count + 1) ∧
    (∀ l : List String, pySliceFrom (-((1 : Int) - 1)) l = l) ∧
    (1 < (add_turn "User" "hi" cm_preamble_one).history.length ∧
      cm_preamble_one.max_history = 1) := by
  refine ⟨?_, rfl, ?_, by decide, by decide⟩
  · rw [add_turn_length r c cm h2]
    omega
  · intro l
    simp [pySliceFrom]

/-- C10 witness: the bound and the counter increment at the session-start
manager (`max_history = 12`). -/
theorem C10_witness :
    (add_turn "User" "hello" cm_session_start).history.length ≤
      cm_session_start.max_history ∧
    (add_turn "User" "hello" cm_session_start).turn_count =
      cm_session_start.turn_count + 1 := by
  have h := C10_thm cm_session_start "User" "hello" (by decide)
  exact ⟨h.1, h.2.1⟩

/-! ## Claim C3 -/

/-- C3 (counterexample): four consecutive no-speech failures from the session
start leave the error counter at 4 with the turn still returning
continue-without-exit, so the session does continue past a counter value of
three (no abort check runs on the no-speech path). -/
theorem C3_counterexample :
    (handle_conversation_turn env_no_speech
        ((fun cm => (handle_conversation_turn env_no_speech cm).cm)^[3]
          cm_session_start)).cm.error_count = 4 ∧
    (handle_conversation_turn env_no_speech
        ((fun cm => (handle_conversation_turn env_no_speech cm).cm)^[3]
          cm_session_start)).should_continue = true ∧
    (handle_conversation_turn env_no_speech
        ((fun cm => (handle_conversation_turn env_no_speech cm).cm)^[3]
          cm_session_start)).should_exit = false := by
  decide

/-- C3 (amended): the error counter is incremented on every recoverable turn
failure (no speech detected, invalid generation result, turn exception) and
reset to zero when generation succeeds, but the ceiling is consulted only in
the exception handler: a no-speech or invalid-generation failure returns
continue-without-exit with no abort check (so the counter can pass three),
and a turn exception after an invalid generation leaves the counter at its
old value plus two and aborts exactly when that reaches the ceiling. -/
theorem C3_thm (env : TurnEnv) (cm : ConversationManager) :
    ((pyStrip env.polling_text).length ≤ 2 →
      handle_conversation_turn env cm =
        { should_continue := true, should_exit := false, llm_calls := 0,
          cm := record_error cm }) ∧
    (2 < (pyStrip env.polling_text).length →
      pyLower (pyStrip env.polling_text) ∉ exit_phrases →
      env.tts_raises = false →
      (env.llm_response = "" ∨ (pyStrip env.llm_response).length < 3) →
      (handle_conversation_turn env cm).cm.error_count = cm.error_count + 1 ∧
      (handle_conversation_turn env cm).should_continue = true ∧
      (handle_conversation_turn env cm).should_exit = false) ∧
    (2 < (pyStrip env.polling_text).length →
      pyLower (pyStrip env.polling_text) ∉ exit_phrases →
      env.tts_raises = false →
      ¬(env.llm_response = "" ∨ (pyStrip env.llm_response).length < 3) →
      (handle_conversation_turn env cm).cm.error_count = 0) ∧
    (2 < (pyStrip env.polling_text).length →
      pyLower (pyStrip env.polling_text) ∉ exit_phrases →
      env.tts_raises = true →
      (env.llm_response = "" ∨ (pyStrip env.llm_response).length < 3) →
      (handle_conversation_turn env cm).cm.error_count = cm.error_count + 2 ∧
      ((handle_conversation_turn env cm).should_exit = true ↔
        cm.max_consecutive_errors ≤ cm.error_count + 2)) := by
  refine ⟨?_, ?_, ?_, ?_⟩
  · intro h
    have hc : ¬(2 < (pyStrip env.polling_text).length) := by omega
    simp [handle_conversation_turn, hc]
  · intro h1 h2 h3 h4
    have hne : pyStrip env.polling_text ≠ "" := string_length_pos_ne_empty (by omega)
    have h2' : pyLower (pyStrip (pyStrip env.polling_text)) ∉ exit_phrases := by
      rw [pyStrip_idem]; exact h2
    unfold handle_conversation_turn
    simp only []
    rw [if_pos h1, if_neg hne, if_neg h2', if_pos h4, if_pos h4, h3]
    simp only [Bool.false_eq_true, if_false]
    by_cases hb : env.barge_in = true ∧ 2 < env.interruption_text.length
    · rw [if_pos hb]
      simp [add_turn_error_count, record_error]
    · rw [if_neg hb]
      simp [add_turn_error_count, record_error]
  · intro h1 h2 h3 h4
    have hne : pyStrip env.polling_text ≠ "" := string_length_pos_ne_empty (by omega)
    have h2' : pyLower (pyStrip (pyStrip env.polling_text)) ∉ exit_phrases := by
      rw [pyStrip_idem]; exact h2
    unfold handle_conversation_turn
    simp only []
    rw [if_pos h1, if_neg hne, if_neg h2', if_neg h4, if_neg h4, h3]
    simp only [Bool.false_eq_true, if_false]
    by_cases hb : env.barge_in = true ∧ 2 < env.interruption_text.length
    · rw [if_pos hb]
      simp [add_turn_error_count, reset_errors]
    · rw [if_neg hb]
      simp [add_turn_error_count, reset_errors]
  · intro h1 h2 h3 h4
    have hne : pyStrip env.polling_text ≠ "" := string_length_pos_ne_empty (by omega)
    have h2' : pyLower (pyStrip (pyStrip env.polling_text)) ∉ exit_phrases := by
      rw [pyStrip_idem]; exact h2
    unfold handle_conversation_turn
    simp only []
    rw [if_pos h1, if_neg hne, if_neg h2', if_pos h4, if_pos h4, h3]
    simp only [if_true]
    have hcount : (record_error (add_turn "Agent" fallback_reply
        (record_error (add_turn "User" (pyStrip env.polling_text) cm)))).error_count
        = cm.error_count + 2 := by
      simp [record_error, add_turn_error_count]
    have hmax : (record_error (add_turn "Agent" fallback_reply
        (record_error (add_turn "User" (pyStrip env.polling_text) cm)))).max_consecutive_errors
        = cm.max_consecutive_errors := rfl
    by_cases habort : should_abort (record_error (add_turn "Agent" fallback_reply
        (record_error (add_turn "User" (pyStrip env.polling_text) cm)))) = true
    · rw [if_pos habort]
      unfold should_abort at habort
      rw [hcount, hmax] at habort
      simp only [decide_eq_true_eq] at habort
      exact ⟨hcount, by simp [habort]⟩
    · rw [if_neg habort]
      unfold should_abort at habort
      rw [hcount, hmax] at habort
      simp only [decide_eq_true_eq] at habort
      exact ⟨hcount, by simp [habort]⟩

/-- C3 witness: the no-speech conjunct of the amended claim evaluated at the
session-start manager. -/
theorem C3_witness :
    (pyStrip env_no_speech.polling_text).length ≤ 2 ∧
    handle_conversation_turn env_no_speech cm_session_start =
      { should_continue := true, should_exit := false, llm_calls := 0,
        cm := record_error cm_session_start } :=
  ⟨by decide, (C3_thm env_no_speech cm_session_start).1 (by decide)⟩

/-! ## Claim C5 -/

/-- C5: a finalized utterance whose stripped, lower-cased text is one of the
exit phrases makes the turn return the graceful-exit outcome
`(should_continue, should_exit) = (False, True)` with no call to the reply
generator and the conversation history unchanged. -/
theorem C5_thm (env : TurnEnv) (cm : ConversationManager)
    (h : pyLower (pyStrip env.polling_text) ∈ exit_phrases) :
    handle_conversation_turn env cm =
      { should_continue := false, should_exit := true, llm_calls := 0, cm := cm } := by
  have hl : (pyLower (pyStrip env.polling_text)).length
      = (pyStrip env.polling_text).length := pyLower_length _
  have hlen : 2 < (pyStrip env.polling_text).length := by
    simp only [exit_phrases, List.mem_cons, List.not_mem_nil, or_false] at h
    rcases h with h | h | h | h <;> rw [← hl, h] <;> decide
  have hne : pyStrip env.polling_text ≠ "" := string_length_pos_ne_empty (by omega)
  have h' : pyLower (pyStrip (pyStrip env.polling_text)) ∈ exit_phrases := by
    rw [pyStrip_idem]; exact h
  unfold handle_conversation_turn
  simp only []
  rw [if_pos hlen, if_neg hne, if_pos h']

/-- C5 witness: the user says " Quit " at the session-start state. -/
theorem C5_witness :
    handle_conversation_turn env_quit cm_session_start =
      { should_continue := false, should_exit := true, llm_calls := 0,
        cm := cm_session_start } :=
  C5_thm env_quit cm_session_start (by decide)

/-! ## Session-ledger lemmas -/

theorem streaming_count_interrupt (ss : List Session) :
    streaming_count (interrupt_streaming ss) = 0 := by
  unfold streaming_count interrupt_streaming
  rw [List.countP_map, List.countP_eq_zero]
  intro s _
  by_cases h : s.sstate = SessionState.Streaming <;> simp [h, Function.comp]

theorem mem_interrupt_streaming {s : Session} {ss : List Session}
    (hs : s ∈ ss) (hstr : s.sstate = SessionState.Streaming) :
    ({ sid := s.sid, sstate := SessionState.Interrupted } : Session) ∈ interrupt_streaming ss := by
  unfold interrupt_streaming
  exact List.mem_map.mpr ⟨s, hs, by rw [if_pos hstr]⟩

theorem not_streaming_of_count_zero {s : Session} {ss : List Session}
    (h0 : streaming_count ss = 0) (hs : s ∈ ss) : s.sstate ≠ SessionState.Streaming := by
  intro hstr
  have := List.countP_eq_zero.mp h0 s hs
  simp [hstr] at this

theorem interrupt_streaming_idem (ss : List Session) :
    interrupt_streaming (interrupt_streaming ss) = interrupt_streaming ss := by
  induction ss with
  | nil => rfl
  | cons s rest ih =>
    unfold interrupt_streaming at ih ⊢
    by_cases hs : s.sstate = SessionState.Streaming <;> simp [hs, ih]

theorem interrupt_streaming_of_none (ss : List Session)
    (h0 : streaming_count ss = 0) : interrupt_streaming ss = ss := by
  induction ss with
  | nil => rfl
  | cons s rest ih =>
    unfold streaming_count at h0 ih
    rw [List.countP_cons] at h0
    have hs : ¬s.sstate = SessionState.Streaming := by
      intro hstr
      simp [hstr] at h0
    unfold interrupt_streaming at ih ⊢
    simp only [List.map_cons, if_neg hs]
    rw [ih (by omega)]

theorem speak_cartesia_inner (g : CartesiaTTS) (gw : cartesia_wf g) :
    streaming_count (if g.is_playing then
      cartesia_monitor_finalize (cartesia_engine_stop g) else g).sessions = 0 ∧
    (if g.is_playing then cartesia_monitor_finalize (cartesia_engine_stop g) else g).next_sid
      = g.next_sid ∧
    (∀ s ∈ g.sessions, s.sstate = SessionState.Streaming →
      ({ sid := s.sid, sstate := SessionState.Interrupted } : Session)
        ∈ (if g.is_playing then
            cartesia_monitor_finalize (cartesia_engine_stop g) else g).sessions) := by
  by_cases hp : g.is_playing = true
  · rw [if_pos hp]
    exact ⟨streaming_count_interrupt g.sessions, rfl,
      fun s hs hstr => mem_interrupt_streaming hs hstr⟩
  · rw [if_neg hp]
    have h0 : streaming_count g.sessions = 0 := by
      by_contra hne
      exact hp (gw.2 hne)
    exact ⟨h0, rfl, fun s hs hstr => absurd hstr (not_streaming_of_count_zero h0 hs)⟩

theorem streaming_count_append_new (ss : List Session) (n : Nat) :
    streaming_count (ss ++ [{ sid := n, sstate := SessionState.Streaming }])
      = streaming_count ss + 1 := by
  unfold streaming_count
  rw [List.countP_append]
  rfl

/-! ## Claim C1 -/

/-- C1 (code bug): the claimed behaviour — a new `speak` cancels the prior
session synchronously and then streams the new utterance, never two
streaming at once — is implemented correctly by the Cartesia handler
(`_speak_cartesia` reads `is_playing` under the lock, releases it, stops the
engine and waits for cleanup before starting the new synthesis: afterwards
exactly one session is `Streaming`, every previously streaming session is
`Interrupted`, only the new session streams and the invariant is preserved),
but the Piper handler of `tts_handler.py` deadlocks in exactly the claimed
scenario: `speak` holds the non-reentrant `state_lock` across its retry loop
and the loop body calls `stop_playback`, which re-acquires that lock, so a
`speak` during active playback never returns (`none`) and never starts the
new session; only from an idle handler does `speak` start one. -/
theorem C1_thm (h : PiperTTS) (chunks : Nat) (hw : piper_wf h)
    (g : CartesiaTTS) (gw : cartesia_wf g) :
    (speak_busy h = true → speak h chunks = none) ∧
    (speak_busy h = false →
      speak h chunks = some (play_with_monitoring chunks h) ∧
      streaming_count (play_with_monitoring chunks h).sessions = 1 ∧
      piper_wf (play_with_monitoring chunks h)) ∧
    streaming_count (speak_cartesia g).sessions = 1 ∧
    (∀ s ∈ g.sessions, s.sstate = SessionState.Streaming →
      ({ sid := s.sid, sstate := SessionState.Interrupted } : Session)
        ∈ (speak_cartesia g).sessions) ∧
    (∀ s ∈ (speak_cartesia g).sessions, s.sstate = SessionState.Streaming →
      s.sid = g.next_sid) ∧
    cartesia_wf (speak_cartesia g) := by
  obtain ⟨gz, gnext, gmem⟩ := speak_cartesia_inner g gw
  have gsess : (speak_cartesia g).sessions = (if g.is_playing then
      cartesia_monitor_finalize (cartesia_engine_stop g) else g).sessions ++
      [{ sid := (if g.is_playing then
          cartesia_monitor_finalize (cartesia_engine_stop g) else g).next_sid,
         sstate := SessionState.Streaming }] := rfl
  have gcount : streaming_count (speak_cartesia g).sessions = 1 := by
    rw [gsess, streaming_count_append_new, gz]
  refine ⟨?_, ?_, gcount, ?_, ?_, ?_⟩
  · intro hb
    unfold speak
    rw [hb]
    rfl
  · intro hb
    have h0 : streaming_count h.sessions = 0 := by
      by_contra hne
      rw [hw.2 hne] at hb
      exact Bool.noConfusion hb
    have hplay : streaming_count (play_with_monitoring chunks h).sessions = 1 := by
      have : (play_with_monitoring chunks h).sessions = h.sessions ++
          [{ sid := h.next_sid, sstate := SessionState.Streaming }] := rfl
      rw [this, streaming_count_append_new, h0]
    refine ⟨?_, hplay, ?_⟩
    · unfold speak
      rw [hb]
      rfl
    · unfold piper_wf
      exact ⟨by rw [hplay], fun _ => rfl⟩
  · intro s hs hstr
    rw [gsess]
    exact List.mem_append_left _ (gmem s hs hstr)
  · intro s hs hstr
    rw [gsess] at hs
    rcases List.mem_append.mp hs with hL | hR
    · exact absurd hstr (not_streaming_of_count_zero gz hL)
    · rw [List.mem_singleton.mp hR, gnext]
  · exact ⟨by rw [gcount], fun _ => rfl⟩

/-- C1 witness: from a concrete handler with an active playback, the Piper
`speak` diverges (the failing input of the deadlock), while a second
Cartesia `speak` over an active synthesis leaves exactly one streaming
session. -/
theorem C1_witness :
    speak (play_with_monitoring 2 piper_init) 3 = none ∧
    streaming_count (speak_cartesia (speak_cartesia cartesia_init)).sessions = 1 :=
  ⟨(C1_thm (play_with_monitoring 2 piper_init) 3 (by unfold piper_wf; decide)
      (speak_cartesia cartesia_init) (by unfold cartesia_wf; decide)).1 (by decide),
   (C1_thm (play_with_monitoring 2 piper_init) 3 (by unfold piper_wf; decide)
      (speak_cartesia cartesia_init) (by unfold cartesia_wf; decide)).2.2.1⟩

/-! ## Claim C6 -/

/-- C6 (counterexample): calling `stop_playback` on a handler whose session
has already completed is not a no-op on observable state: the
barge-in-detected flag reported afterwards flips from `false` to `true`. -/
theorem C6_counterexample :
    is_barge_in_detected piper_completed = false ∧
    is_barge_in_detected (stop_playback piper_completed) = true := by
  decide

/-- C6 (amended): `stop_playback` never raises (its body is total and the
source wraps it in try/except) and is idempotent — cancelling twice yields
exactly the state of cancelling once — and on a session that is no longer
streaming it leaves the session ledger unchanged; but it always sets the
barge-in-detected flag to `true`, so on an already-completed session the
flag reported afterwards changes. -/
theorem C6_thm (h : PiperTTS) :
    stop_playback (stop_playback h) = stop_playback h ∧
    is_barge_in_detected (stop_playback h) = true ∧
    (stop_playback h).is_playing = h.is_playing ∧
    (streaming_count h.sessions = 0 → (stop_playback h).sessions = h.sessions) := by
  refine ⟨?_, rfl, rfl, fun h0 => interrupt_streaming_of_none h.sessions h0⟩
  obtain ⟨ss, ip, bd, se, sp, ql, ns⟩ := h
  simp [stop_playback, interrupt_streaming_idem]

/-- C6 witness: idempotence and ledger preservation at the concrete
completed-session handler. -/
theorem C6_witness :
    stop_playback (stop_playback piper_completed) = stop_playback piper_completed ∧
    (stop_playback piper_completed).sessions = piper_completed.sessions :=
  ⟨(C6_thm piper_completed).1, (C6_thm piper_completed).2.2.2 (by decide)⟩

/-! ## Claim C4 -/

/-- C4 (counterexample): in the Piper handler actually wired into `main.py`,
the monitor confirms barge-in on a single isolated 1-character partial
transcript (`min_consecutive = 1` and any non-empty stripped text passes the
threshold). -/
theorem C4_counterexample : basic_monitor ["a"] "" 0 = true := by
  decide

/-- C4 (amended): in the optimized handler the claim holds — a partial of
length at most 2 (in particular any 1-character partial) never confirms, and
confirmation requires at least two polls, while two changed qualifying polls
do confirm; in the Piper handler of `tts_handler.py` a single non-empty
partial confirms immediately. -/
theorem C4_thm :
    (∀ (polls : List String) (last : String) (consec : Nat),
      (∀ t ∈ polls, t.length ≤ 2) → opt_monitor polls last consec = false) ∧
    (∀ polls : List String, opt_monitor polls "" 0 = true → 2 ≤ polls.length) ∧
    (∀ t1 t2 : String, 2 < t1.length → 2 < t2.length → t1 ≠ t2 →
      opt_monitor [t1, t2] "" 0 = true) := by
  have hsingle : ∀ (t last : String) , opt_monitor [t] last 0 = false := by
    intro t last
    simp only [opt_monitor]
    by_cases h : t ≠ "" ∧ 2 < t.length
    · rw [if_pos h]
      by_cases h2 : t ≠ last
      · rw [if_pos h2, if_neg (by omega : ¬2 ≤ 0 + 1)]
      · rw [if_neg h2]
    · rw [if_neg h]
  refine ⟨?_, ?_, ?_⟩
  · intro polls
    induction polls with
    | nil => intro last consec _; rfl
    | cons t rest ih =>
      intro last consec hall
      have ht : t.length ≤ 2 := hall t (List.mem_cons_self t rest)
      have hc : ¬(t ≠ "" ∧ 2 < t.length) := by
        intro hcon
        omega
      simp only [opt_monitor]
      rw [if_neg hc]
      exact ih t consec fun x hx => hall x (List.mem_cons_of_mem _ hx)
  · intro polls htrue
    match polls with
    | [] => exact absurd htrue (by simp [opt_monitor])
    | [t] => exact absurd htrue (by simp [hsingle])
    | t1 :: t2 :: rest => simp only [List.length_cons]; omega
  · intro t1 t2 h1 h2 hne
    have ht1 : t1 ≠ "" := string_length_pos_ne_empty (by omega)
    have ht2 : t2 ≠ "" := string_length_pos_ne_empty (by omega)
    simp only [opt_monitor]
    rw [if_pos ⟨ht1, h1⟩, if_pos (show t1 ≠ "" from ht1),
      if_neg (by omega : ¬2 ≤ 0 + 1), if_pos ⟨ht2, h2⟩,
      if_pos (show t2 ≠ t1 from hne.symm), if_pos (by omega : 2 ≤ 0 + 1 + 1)]

/-- C4 witness: the short-transcript conjunct at a concrete 1-character
poll sequence and the two-poll confirmation at concrete partials. -/
theorem C4_witness :
    opt_monitor ["a"] "" 0 = false ∧ opt_monitor ["wai", "wait"] "" 0 = true :=
  ⟨C4_thm.1 ["a"] "" 0 (by decide), C4_thm.2.2 "wai" "wait" (by decide) (by decide) (by decide)⟩

/-! ## Claim C7 -/

/-- C7: for every queue content and every consumer behaviour (how many frames
it drains during each blocking window), the producer enqueue step makes at
most two put attempts (the 1 s put plus the single 2 s retry) — it never
blocks indefinitely; it preserves the capacity bound of the queue; and it
drops the chunk only when the queue still holds `maxsize` frames after both
windows. -/
theorem C7_thm (q : List Nat) (x : Nat) (d1 d2 : Nat) :
    ((put_with_backpressure AUDIO_QUEUE_MAXSIZE q x d1 d2).2.2 ≤ 2) ∧
    (q.length ≤ AUDIO_QUEUE_MAXSIZE →
      (put_with_backpressure AUDIO_QUEUE_MAXSIZE q x d1 d2).1.length ≤ AUDIO_QUEUE_MAXSIZE) ∧
    ((put_with_backpressure AUDIO_QUEUE_MAXSIZE q x d1 d2).2.1 = true →
      AUDIO_QUEUE_MAXSIZE ≤ ((q.drop d1).drop d2).length) := by
  by_cases ha : (q.drop d1).length < AUDIO_QUEUE_MAXSIZE
  · have e1 : put_attempt AUDIO_QUEUE_MAXSIZE q x d1 = some (q.drop d1 ++ [x]) := by
      unfold put_attempt
      rw [if_pos ha]
    unfold put_with_backpressure
    rw [e1]
    refine ⟨by show (1 : Nat) ≤ 2; decide, fun _ => ?_,
      fun hfalse => (Bool.false_ne_true hfalse).elim⟩
    show (q.drop d1 ++ [x]).length ≤ AUDIO_QUEUE_MAXSIZE
    simp only [List.length_append, List.length_drop, List.length_cons, List.length_nil] at ha ⊢
    omega
  · have e1 : put_attempt AUDIO_QUEUE_MAXSIZE q x d1 = none := by
      unfold put_attempt
      rw [if_neg ha]
    by_cases hb : ((q.drop d1).drop d2).length < AUDIO_QUEUE_MAXSIZE
    · have e2 : put_attempt AUDIO_QUEUE_MAXSIZE (q.drop d1) x d2
          = some ((q.drop d1).drop d2 ++ [x]) := by
        unfold put_attempt
        rw [if_pos hb]
      unfold put_with_backpressure
      rw [e1, e2]
      refine ⟨by show (2 : Nat) ≤ 2; decide, fun _ => ?_,
        fun hfalse => (Bool.false_ne_true hfalse).elim⟩
      show ((q.drop d1).drop d2 ++ [x]).length ≤ AUDIO_QUEUE_MAXSIZE
      simp only [List.length_append, List.length_drop, List.length_cons,
        List.length_nil] at hb ⊢
      omega
    · have e2 : put_attempt AUDIO_QUEUE_MAXSIZE (q.drop d1) x d2 = none := by
        unfold put_attempt
        rw [if_neg hb]
      unfold put_with_backpressure
      rw [e1, e2]
      refine ⟨by show (2 : Nat) ≤ 2; decide, fun hq => ?_, fun _ => by omega⟩
      show ((q.drop d1).drop d2).length ≤ AUDIO_QUEUE_MAXSIZE
      simp only [List.length_drop] at hq ⊢
      omega

/-- C7 witness: the capacity bound after one enqueue step on the empty
queue. -/
theorem C7_witness :
    (put_with_backpressure AUDIO_QUEUE_MAXSIZE ([] : List Nat) 7 0 0).1.length
      ≤ AUDIO_QUEUE_MAXSIZE :=
  (C7_thm [] 7 0 0).2.1 (by decide)

/-! ## Claim C9 -/

/-- C9: in the optimized handler, whenever Cartesia is enabled and a
synthesis future is pending, `wait_for_completion` returns `True` at once —
for every timeout value and every poll trace (including traces in which
barge-in was detected), so it never waits and never reports interruption;
only on the SystemEngine side does it run the polling loop, bounded by the
timeout, that reports completion, barge-in or timeout. -/
theorem C9_thm (s : OptWaitState) (timeout : Nat) (trace : List (Bool × Bool)) :
    (s.use_cartesia = true → s.cartesia_future.isSome = true →
      wait_for_completion s timeout trace = true) ∧
    (s.use_cartesia = false →
      wait_for_completion s timeout trace = poll_loop (trace.take timeout)) := by
  constructor
  · intro h1 h2
    unfold wait_for_completion
    rw [h1, h2]
    rfl
  · intro h1
    unfold wait_for_completion
    rw [h1]
    rfl

/-- C9 witness: with a pending future, timeout 0 and a trace reporting
barge-in, the wait still returns `True` immediately. -/
theorem C9_witness :
    wait_for_completion { use_cartesia := true, cartesia_future := some 0 } 0
      [(true, true)] = true :=
  (C9_thm { use_cartesia := true, cartesia_future := some 0 } 0 [(true, true)]).1 rfl rfl

/-! ## Claim C8 -/

/-- C8 (counterexample): the latest partial transcript returned by
`get_realtime_text` is exposed without the domain corrections: after a
realtime update with the raw text "wanna" the exposed transcript differs
from its corrected form "want to". -/
theorem C8_counterexample :
    get_realtime_text (on_realtime_update "wanna" stt_init) ≠
      apply_corrections (get_realtime_text (on_realtime_update "wanna" stt_init)) := by
  decide

/-- C8 (amended): the finalized-utterance path applies the domain vocabulary
corrections before exposure (and the correction function is embedded as a
pure function of the text alone), but the realtime path does not: the latest
partial transcript is exposed exactly as the recogniser produced it. -/
theorem C8_thm (t : String) (s : STTState) :
    (get_realtime_text (on_realtime_update t s) = t) ∧
    (apply_corrections t ≠ "" →
      (on_transcription_complete t s).last_completed_text = apply_corrections t) := by
  refine ⟨rfl, fun hne => ?_⟩
  unfold on_transcription_complete
  simp only []
  rw [if_pos hne]

/-- C8 witness: the raw realtime exposure and the corrected finalized
exposure of the transcript "wanna". -/
theorem C8_witness :
    get_realtime_text (on_realtime_update "wanna" stt_init) = "wanna" ∧
    (on_transcription_complete "wanna" stt_init).last_completed_text =
      apply_corrections "wanna" :=
  ⟨(C8_thm "wanna" stt_init).1, (C8_thm "wanna" stt_init).2 (by decide)⟩
